import Mathlib

/-!
# Verification of the DHRA document-summarization pipeline

Shallow embedding of the core pipeline of `src/app.py`:
link resolution and document download (`download_pdf`), text extraction
(`extract_text_with_pdfminer`), model-catalog retrieval and selection and the
chat-completion call (`CerebrasLLM.get_available_models` / `get_response`),
hidden-reasoning removal (`CerebrasLLM.extract_actual_response`), and
summarization with prompt clipping and word-budget truncation
(`summarize_pdf_with_cerebras`).

Python strings are modelled as Lean `String` (Python `len` counts code points,
as does `List.length` on `String.data`).  Python's `str.split`, `str.strip`,
`str.find`, slicing, `urllib.parse.urlsplit` and `urllib.parse.parse_qs` are
modelled by executable functions over `List Char` below, faithful to CPython's
algorithms for the character sets that occur in the repository's data
(percent-escape decoding of query values is not modelled; no claim involves a
percent-escaped link).  Network and PDF-extraction effects are modelled as
explicit oracle arguments; the filesystem is an association list from path to
byte content.
-/

/-- ASCII whitespace, the set Python's default `str.split`/`str.strip` use
(`' \t\n\r\v\f'`; further Unicode whitespace is not modelled). -/
def isWS (c : Char) : Bool :=
  c == ' ' || c == '\t' || c == '\n' || c == '\r' || c == '\x0b' || c == '\x0c'

/-- Python `str.strip()` on a character list: drop whitespace from both ends. -/
def pyStrip (l : List Char) : List Char :=
  ((l.dropWhile isWS).reverse.dropWhile isWS).reverse

/-- Python `str.strip()` on a string. -/
def pyStripStr (s : String) : String := ⟨pyStrip s.data⟩

/-- Python `len` on a string (counts code points). -/
def pyLen (s : String) : Nat := s.data.length

/-- Python slicing `s[:n]`. -/
def pySlice (s : String) (n : Nat) : String := ⟨s.data.take n⟩

/-- Python `s.replace('\x00', '')`: remove every null character. -/
def removeNulls (s : String) : String := ⟨s.data.filter (fun c => c != '\x00')⟩

/-- Python `str.find(pat)`: index of the first occurrence of `pat` in `hay`,
`none` when absent (Python returns `-1`). -/
def strFind (hay pat : List Char) : Option Nat :=
  match hay with
  | [] => if pat.isEmpty then some 0 else none
  | c :: t => if pat.isPrefixOf (c :: t) then some 0 else (strFind t pat).map (· + 1)

/-- Python `pat in hay` substring test. -/
def hasSub (hay pat : List Char) : Bool := (strFind hay pat).isSome

/-- Python `s.split(sep)` for a one-character separator: split at every
occurrence, keeping empty pieces (`'/a/'.split('/') = ['', 'a', '']`). -/
def splitOnChar (sep : Char) : List Char → List (List Char)
  | [] => [[]]
  | c :: t =>
    if c = sep then [] :: splitOnChar sep t
    else match splitOnChar sep t with
      | [] => [[c]]
      | w :: ws => (c :: w) :: ws

/-- Python `s.split(sep, 1)` restricted to a one-character separator: the part
before the first occurrence of `sep` and the part after it (`none` if absent). -/
def splitFirst (sep : Char) : List Char → Option (List Char × List Char)
  | [] => none
  | c :: t =>
    if c = sep then some ([], t)
    else (splitFirst sep t).map (fun p => (c :: p.1, p.2))

/-- Python `str.split()` with no argument: split on runs of whitespace and
drop empty pieces. -/
def splitWs (l : List Char) : List (List Char) :=
  (l.splitOnP isWS).filter (fun w => !w.isEmpty)

/-! ## `urllib.parse` model

`urlsplit` (CPython): strip a valid scheme prefix `scheme:`, then a netloc
`//host` running up to the next `/`, `?` or `#`, then split off the fragment at
the first `#` and the query at the first `?`; what remains is the path. -/

/-- Characters allowed in a URL scheme after the leading letter. -/
def schemeChar (c : Char) : Bool := c.isAlpha || c.isDigit || c == '+' || c == '-' || c == '.'

/-- CPython `_splitnetloc`: the netloc runs until the next `'/'`, `'?'` or
`'#'`; returns (netloc, rest). -/
def splitNetloc : List Char → List Char × List Char
  | [] => ([], [])
  | c :: t =>
    if c = '/' || c = '?' || c = '#' then ([], c :: t)
    else
      let p := splitNetloc t
      (c :: p.1, p.2)

/-- The `path` and `query` components of a parsed URL (the only components
`download_pdf` reads). -/
structure UrlParts where
  path : List Char
  query : List Char
deriving DecidableEq, Repr

/-- Model of `urllib.parse.urlparse` restricted to the `path` and `query`
components, following CPython `urlsplit`. -/
def pyUrlparse (url : List Char) : UrlParts :=
  let rest1 :=
    match splitFirst ':' url with
    | some (pre, post) =>
      match pre with
      | [] => url
      | c0 :: cs => if c0.isAlpha && cs.all schemeChar then post else url
    | none => url
  let rest2 :=
    match rest1 with
    | '/' :: '/' :: t => (splitNetloc t).2
    | _ => rest1
  let rest3 :=
    match splitFirst '#' rest2 with
    | some (pre, _) => pre
    | none => rest2
  match splitFirst '?' rest3 with
  | some (pre, q) => ⟨pre, q⟩
  | none => ⟨rest3, []⟩

/-- Replace `'+'` by a space, as CPython `parse_qsl` does before unquoting. -/
def plusToSpace (l : List Char) : List Char :=
  l.map (fun c => if c = '+' then ' ' else c)

/-- Model of `urllib.parse.parse_qsl` with default arguments: split the query
on `'&'`; skip empty chunks, chunks with no `'='`, and chunks whose value is
empty; split each remaining chunk at the first `'='`. -/
def pyParseQsl (q : List Char) : List (List Char × List Char) :=
  (splitOnChar '&' q).filterMap fun chunk =>
    if chunk.isEmpty then none
    else match splitFirst '=' chunk with
      | none => none
      | some (n, v) => if v.isEmpty then none else some (plusToSpace n, plusToSpace v)

/-- `parse_qs(query).get('id', [None])[0]`: the value of the first `id`
parameter of the query string, if any. -/
def qsGetId (q : List Char) : Option (List Char) :=
  ((pyParseQsl q).find? (fun p => p.1 = "id".data)).map Prod.snd

/-! ## LinkResolver (`download_pdf`, src/app.py lines 491-499) -/

/-- The literal `"/d/"` tested by `'/d/' in parsed_url.path`. -/
def dSeg : List Char := "/d/".data

/-- Outcome of the link-resolution prefix of `download_pdf`:
`ok id` when a file identifier was extracted; `linkFormatError` for the
`"Invalid Google Drive link."` early return; `genericError` when
`parsed_url.path.split('/')[3]` raises `IndexError`, which the enclosing
`except` turns into the generic `"An error occurred"` return. -/
inductive ResolveResult
  | ok (fileId : List Char)
  | linkFormatError
  | genericError
deriving DecidableEq, Repr

/-- Lines 491-499 of `download_pdf`: take the query parameter `id` if present
(and truthy); otherwise, if the path contains `'/d/'`, take
`path.split('/')[3]`; otherwise fail. -/
def resolveLink (drive_link : List Char) : ResolveResult :=
  let parsed := pyUrlparse drive_link
  let fid1 : Option (List Char) :=
    match qsGetId parsed.query with
    | some v => if v.isEmpty then none else some v
    | none => none
  match fid1 with
  | some v => .ok v
  | none =>
    if hasSub parsed.path dSeg then
      match (splitOnChar '/' parsed.path).get? 3 with
      | none => .genericError
      | some seg => if seg.isEmpty then .linkFormatError else .ok seg
    else .linkFormatError

/-- In `splitOnChar '/' path`, the component immediately following the first
component equal to `"d"` — the reading "the path segment immediately following
`/d/`" of the specification. -/
def segmentAfterD (path : List Char) : Option (List Char) :=
  ((splitOnChar '/' path).dropWhile (fun w => w ≠ "d".data)).get? 1

/-! ## DocumentFetcher (`download_pdf`, src/app.py lines 502-529) -/

/-- The filesystem: an association list from path to byte content (a path
occurs at most once in the states the model produces; lookup takes the first
binding). -/
abbrev FS := List (String × List Nat)

/-- `os.path.exists` / reading a file: first binding for the path. -/
def fsLookup (fs : FS) (p : String) : Option (List Nat) :=
  (fs.find? (fun e => e.1 = p)).map Prod.snd

/-- `os.remove`: drop every binding for the path. -/
def fsRemove (fs : FS) (p : String) : FS := fs.filter (fun e => e.1 ≠ p)

/-- An HTTP response to the streaming GET: status code and the chunk sequence
`response.iter_content(chunk_size=1024)` yields. -/
structure HttpResponse where
  status : Nat
  chunks : List (List Nat)
deriving DecidableEq, Repr

/-- Outcome of `download_pdf`: `stored` on success, `invalidLink` for the
`"Invalid Google Drive link."` return, `httpFailed` for the non-200 return,
`raised` when the resolution step raised (caught by the enclosing `except`). -/
inductive DownloadOutcome
  | stored
  | invalidLink
  | httpFailed
  | raised
deriving DecidableEq, Repr

/-- The storage path `researchers/{email}/{title}.pdf` built by
`os.path.join(f"researchers/{email}", f"{title}.pdf")`. -/
def storedPath (email title : String) : String :=
  "researchers/" ++ email ++ "/" ++ title ++ ".pdf"

/-- `download_pdf(drive_link, email, title)` given the response `resp` the
single GET would observe.  Resolution failures return with the filesystem
untouched; a non-200 status returns with the filesystem untouched; on 200 the
pre-existing file (if any) is deleted and the non-empty chunks of the body are
written to the target path. -/
def download_pdf (fs : FS) (drive_link : String) (email title : String)
    (resp : HttpResponse) : FS × DownloadOutcome :=
  match resolveLink drive_link.data with
  | .linkFormatError => (fs, .invalidLink)
  | .genericError => (fs, .raised)
  | .ok _ =>
    if resp.status ≠ 200 then (fs, .httpFailed)
    else
      let target := storedPath email title
      let fs1 := if (fsLookup fs target).isSome then fsRemove fs target else fs
      ((target, ((resp.chunks.filter (fun c => !c.isEmpty)).flatten)) :: fs1, .stored)

/-! ## TextExtractor (`extract_text_with_pdfminer`, src/app.py lines 23-58) -/

/-- What `pdfminer.high_level.extract_text` does on a given byte content:
either raises or returns a text. -/
inductive MinerOutcome
  | raises
  | returns (text : String)

/-- Result of `extract_text_with_pdfminer`.  The Python function returns
`None` at four distinct sites, each with its own log message; the constructors
tag which site fired (lines 33, 38, 50 and 58 respectively), matching the
specification's error taxonomy. -/
inductive ExtractResult
  | ok (text : String)
  | notFound
  | emptyFile
  | tooShort
  | corruptOrProtected
deriving DecidableEq, Repr

/-- `text.replace('\x00', '').strip()` as applied at line 46. -/
def cleanExtracted (t : String) : String := pyStripStr (removeNulls t)

/-- `extract_text_with_pdfminer(pdf_path)` over the filesystem model, with the
extractor behaviour supplied as the oracle `miner` (a function of the stored
bytes). -/
def extract_text_with_pdfminer (fs : FS) (miner : List Nat → MinerOutcome)
    (pdf_path : String) : ExtractResult :=
  match fsLookup fs pdf_path with
  | none => .notFound
  | some content =>
    if content.length = 0 then .emptyFile
    else
      match miner content with
      | .raises => .corruptOrProtected
      | .returns t =>
        let t1 := cleanExtracted t
        if pyLen t1 < 10 then .tooShort else .ok t1

/-! ## CerebrasLLM (src/app.py lines 60-169) -/

/-- One turn of the conversation history. -/
structure Message where
  role : String
  content : String
deriving DecidableEq, Repr

/-- What the `GET {base}/models` request observes: either a parsed `data`
array of model ids, or any network/parse exception. -/
inductive ModelsFetchOutcome
  | httpJson (ids : List String)
  | exc

/-- `get_available_models`: the id list on success, `[]` on any exception. -/
def get_available_models : ModelsFetchOutcome → List String
  | .httpJson ids => ids
  | .exc => []

/-- The fixed preference list of line 107. -/
def preferred_models : List String := ["llama3.1-70b", "llama-3.3-70b", "llama3.1-8b"]

/-- Lines 108-117 of `get_response`: the first preferred model present in the
catalog, else the catalog's first entry.  (Only reached when the catalog is
non-empty; `headD` stands for `models[0]`.) -/
def select_model (models : List String) : String :=
  match preferred_models.find? (fun p => models.contains p) with
  | some p => p
  | none => models.headD ""

/-- The literal `'</think>'` marker. -/
def thinkM : List Char := "</think>".data

/-- `extract_actual_response` (lines 152-169): if `'</think>'` occurs, return
the text strictly after its first occurrence, stripped; otherwise return the
input unchanged.  (The `try/except` around the body cannot fire: no statement
in it raises.) -/
def extract_actual_response (full_response : String) : String :=
  match strFind full_response.data thinkM with
  | some i => ⟨pyStrip (full_response.data.drop (i + 8))⟩
  | none => full_response

/-- What the `POST {base}/chat/completions` request observes: an HTTP response
with status and extracted message content, or a network exception. -/
inductive CompletionResult
  | http (status : Nat) (content : String)
  | exc

/-- Result of `get_response`: the conversation history afterwards, the
returned value (`none` models Python's `None`), whether the completion POST
was issued, and the model selected for it (if reached). -/
structure GetResponseOut where
  history : List Message
  result : Option String
  completionRequested : Bool
  selectedModel : Option String
deriving DecidableEq, Repr

/-- `get_response(user_input)` (lines 95-150) on a session whose history is
`history`, with the network behaviour supplied by the oracles `fetch` (models
listing) and `comp` (completion call).  The user turn is appended first; an
empty catalog returns `None` before any completion request; otherwise the
completion is issued and, on status 200, the sanitized content is appended as
an assistant turn and returned; a non-200 status or exception returns `None`
leaving the history at `history ++ [user turn]`. -/
def get_response (history : List Message) (user_input : String)
    (fetch : ModelsFetchOutcome) (comp : CompletionResult) : GetResponseOut :=
  let history := history ++ [⟨"user", user_input⟩]
  let models := get_available_models fetch
  if models.isEmpty then ⟨history, none, false, none⟩
  else
    let selected := select_model models
    match comp with
    | .http status content =>
      if status = 200 then
        let actual := extract_actual_response content
        ⟨history ++ [⟨"assistant", actual⟩], some actual, true, some selected⟩
      else ⟨history, none, true, some selected⟩
    | .exc => ⟨history, none, true, some selected⟩

/-! ## summarize_pdf_with_cerebras (src/app.py lines 171-226) -/

/-- The system prompt of lines 187-189. -/
def system_prompt : String :=
  "You are a helpful AI assistant specialized in document summarization.\nYour task is to read documents in any language and provide clear, concise summaries in English.\nFocus on capturing the main points, key ideas, and important details."

/-- The part of the user prompt before the document text (lines 195-203). -/
def promptPrefix (max_words : Nat) : String :=
  "Please read the following document carefully and provide a comprehensive summary in English.\n\nThe summary should:\n- Be approximately " ++ toString max_words ++ " words\n- Capture all the main points and key ideas\n- Be written in clear, professional English\n- Include important details and context\n\nDOCUMENT:\n"

/-- The part of the user prompt after the document text (lines 205-206). -/
def promptSuffix : String := "\n\nPlease provide the summary in English:"

/-- The user prompt of lines 195-206 with the (already clipped) document text
embedded. -/
def build_user_prompt (pdf_text : String) (max_words : Nat) : String :=
  promptPrefix max_words ++ pdf_text ++ promptSuffix

/-- Lines 216-220: split the summary on whitespace; if more than `max_words`
tokens, keep the first `max_words` and rejoin with single spaces. -/
def truncate_words (summary : String) (max_words : Nat) : String :=
  let words := splitWs summary.data
  if words.length > max_words then ⟨List.intercalate [' '] (words.take max_words)⟩
  else summary

/-- Observable outcome of `summarize_pdf_with_cerebras`: the returned value,
whether a `CerebrasLLM` session was constructed, whether the model-catalog GET
was issued, whether the completion POST was issued, the user prompt sent (if
any), and the session history at the end. -/
structure SummarizeOut where
  result : Option String
  sessionCreated : Bool
  catalogRequested : Bool
  completionRequested : Bool
  sentUserPrompt : Option String
  finalHistory : List Message
deriving DecidableEq, Repr

/-- `summarize_pdf_with_cerebras(pdf_text, max_words)` (lines 171-226) with
the network behaviour supplied by the oracles.  A text whose stripped length
is below 50 returns `None` immediately — before the `CerebrasLLM` session is
created, hence before the catalog GET and the completion POST.  Otherwise the
text is clipped to its first 8000 characters, embedded in the user prompt, and
the response (if any) is truncated to `max_words` words. -/
def summarize_pdf_with_cerebras (pdf_text : String) (max_words : Nat)
    (fetch : ModelsFetchOutcome) (comp : CompletionResult) : SummarizeOut :=
  if pdf_text = "" ∨ pyLen (pyStripStr pdf_text) < 50 then
    ⟨none, false, false, false, none, []⟩
  else
    let clipped := if pyLen pdf_text > 8000 then pySlice pdf_text 8000 else pdf_text
    let prompt := build_user_prompt clipped max_words
    let out := get_response [⟨"system", system_prompt⟩] prompt fetch comp
    let res :=
      match out.result with
      | none => none
      | some summary => some (truncate_words summary max_words)
    ⟨res, true, true, out.completionRequested, some prompt, out.history⟩

/-! ## Helper lemmas -/

/-- `pyStrip` is the identity on a run of a non-whitespace character. -/
theorem pyStrip_replicate_a (n : Nat) :
    pyStrip (List.replicate n 'a') = List.replicate n 'a' := by
  have hdrop : (List.replicate n 'a').dropWhile isWS = List.replicate n 'a' := by
    cases n with
    | zero => rfl
    | succ m => simp [List.replicate_succ, List.dropWhile_cons, isWS]
  simp [pyStrip, hdrop, List.reverse_replicate]

/-- A 9000-character document text (used to witness the clipping claim). -/
def bigText : String := ⟨List.replicate 9000 'a'⟩

/-! ## Claim theorems -/

/-- C2: a non-200 download response returns the `DownloadError` outcome and
leaves the filesystem — in particular any file already stored at
`researchers/{owner}/{title}.pdf` — byte-for-byte unchanged; the delete of a
pre-existing file happens only on the 200 branch. -/
theorem download_non200_leaves_fs_unchanged (fs : FS) (link email title : String)
    (resp : HttpResponse) (fid : List Char)
    (hres : resolveLink link.data = .ok fid) (hst : resp.status ≠ 200) :
    download_pdf fs link email title resp = (fs, .httpFailed) := by
  simp [download_pdf, hres, hst]

/-- Witness for C2 at a concrete input: a 404 response leaves a pre-existing
stored file untouched. -/
theorem download_non200_leaves_fs_unchanged_witness :
    download_pdf [("researchers/alice/paper.pdf", [1, 2, 3])]
        "https://drive.example.com/open?id=ABC123" "alice" "paper"
        ⟨404, [[9, 9]]⟩
      = ([("researchers/alice/paper.pdf", [1, 2, 3])], .httpFailed) :=
  download_non200_leaves_fs_unchanged _ _ _ _ _ "ABC123".data (by decide) (by decide)

/-- C3: the extraction checks fire in order — missing path, then zero-byte
file (before the extractor is consulted: the conclusion holds for every
`miner`), then extractor exception, then the 10-character minimum applied
after null bytes are removed and whitespace trimmed; a cleaned text of at most
9 characters fails and one of at least 10 characters is accepted. -/
theorem extract_checks_in_order (fs : FS) (miner : List Nat → MinerOutcome)
    (path : String) (content : List Nat) (t : String) :
    (fsLookup fs path = none → extract_text_with_pdfminer fs miner path = .notFound)
    ∧ (fsLookup fs path = some [] → extract_text_with_pdfminer fs miner path = .emptyFile)
    ∧ (fsLookup fs path = some content → content ≠ [] → miner content = .raises →
        extract_text_with_pdfminer fs miner path = .corruptOrProtected)
    ∧ (fsLookup fs path = some content → content ≠ [] → miner content = .returns t →
        pyLen (cleanExtracted t) ≤ 9 →
        extract_text_with_pdfminer fs miner path = .tooShort)
    ∧ (fsLookup fs path = some content → content ≠ [] → miner content = .returns t →
        10 ≤ pyLen (cleanExtracted t) →
        extract_text_with_pdfminer fs miner path = .ok (cleanExtracted t)) := by
  refine ⟨fun h => ?_, fun h => ?_, fun h hne hm => ?_, fun h hne hm hlen => ?_,
    fun h hne hm hlen => ?_⟩
  · simp [extract_text_with_pdfminer, h]
  · simp [extract_text_with_pdfminer, h]
  · have : content.length ≠ 0 := by simpa [List.length_eq_zero] using hne
    simp [extract_text_with_pdfminer, h, this, hm]
  · have h0 : content.length ≠ 0 := by simpa [List.length_eq_zero] using hne
    have h10 : pyLen (cleanExtracted t) < 10 := by omega
    simp [extract_text_with_pdfminer, h, h0, hm, h10]
  · have h0 : content.length ≠ 0 := by simpa [List.length_eq_zero] using hne
    have h10 : ¬ pyLen (cleanExtracted t) < 10 := by omega
    simp [extract_text_with_pdfminer, h, h0, hm, h10]

/-- Witness for C3 at concrete inputs: a 9-character extraction fails, a
10-character one is accepted, and a zero-byte file fails regardless of the
extractor. -/
theorem extract_checks_in_order_witness :
    extract_text_with_pdfminer [("p.pdf", [1])] (fun _ => .returns "123456789") "p.pdf"
        = .tooShort
    ∧ extract_text_with_pdfminer [("q.pdf", [1])] (fun _ => .returns "1234567890") "q.pdf"
        = .ok "1234567890"
    ∧ extract_text_with_pdfminer [("r.pdf", [])] (fun _ => .raises) "r.pdf" = .emptyFile := by
  refine ⟨?_, ?_, ?_⟩
  · exact (extract_checks_in_order [("p.pdf", [1])] (fun _ => .returns "123456789")
      "p.pdf" [1] "123456789").2.2.2.1 (by decide) (by decide) rfl (by decide)
  · have h := (extract_checks_in_order [("q.pdf", [1])] (fun _ => .returns "1234567890")
      "q.pdf" [1] "1234567890").2.2.2.2 (by decide) (by decide) rfl (by decide)
    have he : cleanExtracted "1234567890" = "1234567890" := by decide
    rw [he] at h
    exact h
  · exact (extract_checks_in_order [("r.pdf", [])] (fun _ => .raises) "r.pdf" [] "").2.1
      (by decide)

/-- C4: on a non-empty catalog, selection returns the first entry of the fixed
preference list `['llama3.1-70b', 'llama-3.3-70b', 'llama3.1-8b']` present in
the catalog, and the catalog's first entry when none is present. -/
theorem model_selection_preference (models : List String) (h : models ≠ []) :
    select_model models =
      if "llama3.1-70b" ∈ models then "llama3.1-70b"
      else if "llama-3.3-70b" ∈ models then "llama-3.3-70b"
      else if "llama3.1-8b" ∈ models then "llama3.1-8b"
      else models.head h := by
  have hd : models.head?.getD "" = models.head h := by
    rcases models with _ | ⟨a, tl⟩
    · exact absurd rfl h
    · rfl
  by_cases h1 : "llama3.1-70b" ∈ models <;>
    by_cases h2 : "llama-3.3-70b" ∈ models <;>
      by_cases h3 : "llama3.1-8b" ∈ models <;>
        simp [select_model, preferred_models, List.find?, List.elem_eq_mem, h1, h2, h3, hd]

/-- Witness for C4: the specification's example catalog selects
`llama-3.3-70b`. -/
theorem model_selection_preference_witness :
    select_model ["modelA", "llama-3.3-70b", "modelB"] = "llama-3.3-70b" := by
  have h := model_selection_preference ["modelA", "llama-3.3-70b", "modelB"] (by decide)
  rw [h]
  decide

/-- C5: with an empty model catalog, `get_response` returns the failure value
without issuing any chat-completion request (and without selecting a model);
and a catalog-retrieval failure yields exactly the empty catalog. -/
theorem empty_catalog_no_completion (hist : List Message) (u : String)
    (fetch : ModelsFetchOutcome) (comp : CompletionResult)
    (hempty : get_available_models fetch = []) :
    get_response hist u fetch comp
      = ⟨hist ++ [⟨"user", u⟩], none, false, none⟩
    ∧ get_available_models .exc = [] :=
  ⟨by simp [get_response, hempty], rfl⟩

/-- Witness for C5 at a concrete input: an empty catalog short-circuits even
when the completion oracle would have answered 200. -/
theorem empty_catalog_no_completion_witness :
    get_response [⟨"system", "s"⟩] "hello" (.httpJson []) (.http 200 "ans")
      = ⟨[⟨"system", "s"⟩, ⟨"user", "hello"⟩], none, false, none⟩ :=
  (empty_catalog_no_completion [⟨"system", "s"⟩] "hello" (.httpJson []) (.http 200 "ans")
    rfl).1

/-- C6: a completion attempt that ends in a non-200 response or a network
exception returns the failure value and leaves the history equal to the prior
history with exactly the user turn appended — no assistant turn. -/
theorem completion_failure_preserves_history (hist : List Message) (u : String)
    (fetch : ModelsFetchOutcome) (comp : CompletionResult)
    (hm : get_available_models fetch ≠ [])
    (hfail : ∀ status content, comp = .http status content → status ≠ 200) :
    (get_response hist u fetch comp).history = hist ++ [⟨"user", u⟩]
    ∧ (get_response hist u fetch comp).result = none := by
  have hm' : (get_available_models fetch).isEmpty = false := by
    simpa [List.isEmpty_iff] using hm
  cases comp with
  | http status content =>
    have hs : status ≠ 200 := hfail status content rfl
    constructor <;> simp [get_response, hm', hs]
  | exc => constructor <;> simp [get_response, hm']

/-- Witness for C6 at a concrete input: a 500 response appends only the user
turn and returns the failure value. -/
theorem completion_failure_preserves_history_witness :
    (get_response [⟨"system", "s"⟩] "hi" (.httpJson ["m"]) (.http 500 "oops")).history
      = [⟨"system", "s"⟩, ⟨"user", "hi"⟩]
    ∧ (get_response [⟨"system", "s"⟩] "hi" (.httpJson ["m"]) (.http 500 "oops")).result
      = none := by
  have h := completion_failure_preserves_history [⟨"system", "s"⟩] "hi" (.httpJson ["m"])
    (.http 500 "oops") (by decide)
    (by intro st c he; cases he; decide)
  simpa using h

/-- C7: a document text longer than 8000 characters is embedded in the user
prompt clipped to exactly its first 8000 characters, and a text of at most
8000 characters is embedded unchanged.  The model is purely functional, so the
caller's text value is not mutated by the clipping (in the Python source the
clip rebinds a local name; `str` values are immutable). -/
theorem prompt_clip_8000 (t : String) (mw : Nat) (fetch : ModelsFetchOutcome)
    (comp : CompletionResult) (h50 : 50 ≤ pyLen (pyStripStr t)) :
    (8000 < pyLen t →
       (summarize_pdf_with_cerebras t mw fetch comp).sentUserPrompt
         = some (promptPrefix mw ++ pySlice t 8000 ++ promptSuffix)
       ∧ pyLen (pySlice t 8000) = 8000)
    ∧ (pyLen t ≤ 8000 →
       (summarize_pdf_with_cerebras t mw fetch comp).sentUserPrompt
         = some (promptPrefix mw ++ t ++ promptSuffix)) := by
  have hne : ¬(t = "" ∨ pyLen (pyStripStr t) < 50) := by
    rintro (rfl | hlt)
    · exact absurd h50 (by decide)
    · omega
  constructor
  · intro h8
    constructor
    · unfold summarize_pdf_with_cerebras
      rw [if_neg hne]
      simp only [gt_iff_lt, if_pos h8, build_user_prompt]
    · simp only [pyLen, pySlice, List.length_take]
      simp only [pyLen] at h8
      omega
  · intro h8
    have h8' : ¬ 8000 < pyLen t := by omega
    unfold summarize_pdf_with_cerebras
    rw [if_neg hne]
    simp only [gt_iff_lt, if_neg h8', build_user_prompt]

/-- The character list of `bigText`. -/
theorem bigText_data : bigText.data = List.replicate 9000 'a' := rfl

/-- Witness for C7: a 9000-character text is clipped to exactly 8000
characters inside the prompt. -/
theorem prompt_clip_8000_witness :
    pyLen bigText = 9000
    ∧ (summarize_pdf_with_cerebras bigText 150 (.httpJson ["m"]) .exc).sentUserPrompt
        = some (promptPrefix 150 ++ pySlice bigText 8000 ++ promptSuffix)
    ∧ pyLen (pySlice bigText 8000) = 8000 := by
  have hlen : pyLen bigText = 9000 := by
    unfold pyLen
    rw [bigText_data, List.length_replicate]
  have hstrip : pyLen (pyStripStr bigText) = 9000 := by
    unfold pyLen pyStripStr
    rw [bigText_data, pyStrip_replicate_a, List.length_replicate]
  have h := (prompt_clip_8000 bigText 150 (.httpJson ["m"]) .exc (by omega)).1 (by omega)
  exact ⟨hlen, h.1, h.2⟩

/-- C10 (implicit): a text whose whitespace-stripped length is below 50 makes
`summarize_pdf_with_cerebras` fail immediately: the failure value is returned
with no `CerebrasLLM` session created, no model-catalog request (hence no
model selection) and no completion request issued. -/
theorem short_text_fails_before_session (t : String) (mw : Nat)
    (fetch : ModelsFetchOutcome) (comp : CompletionResult)
    (h : pyLen (pyStripStr t) < 50) :
    summarize_pdf_with_cerebras t mw fetch comp = ⟨none, false, false, false, none, []⟩ := by
  simp [summarize_pdf_with_cerebras, h]

/-- Witness for C10 at a concrete input: a 10-character text (which would pass
the extractor's 10-character minimum) still fails at the summarization
boundary, touching nothing. -/
theorem short_text_fails_before_session_witness :
    summarize_pdf_with_cerebras "short text" 100 (.httpJson ["m"]) (.http 200 "ans")
      = ⟨none, false, false, false, none, []⟩ :=
  short_text_fails_before_session "short text" 100 (.httpJson ["m"]) (.http 200 "ans")
    (by decide)

theorem thinkM_length : thinkM.length = 8 := by decide

theorem thinkM_no_border : ∀ k, k < 8 → 1 ≤ k → thinkM.take (8 - k) ≠ thinkM.drop k := by
  decide

/-- If the marker is a prefix of `l`, then `l` contains the marker. -/
theorem hasSub_of_isPrefixOf {l : List Char} (h : thinkM.isPrefixOf l = true) :
    hasSub l thinkM = true := by
  cases l with
  | nil => exact absurd h (by decide)
  | cons c t =>
    unfold hasSub strFind
    rw [h]
    rfl

/-- If the marker is a prefix of `l`, the find returns index 0. -/
theorem strFind_of_isPrefixOf {l : List Char} (h : thinkM.isPrefixOf l = true) :
    strFind l thinkM = some 0 := by
  cases l with
  | nil => exact absurd h (by decide)
  | cons c t =>
    unfold strFind
    rw [h]
    rfl

/-- Unfolding of a failed containment test on a cons cell. -/
theorem hasSub_cons_false {c : Char} {t : List Char} (h : hasSub (c :: t) thinkM = false) :
    thinkM.isPrefixOf (c :: t) = false ∧ hasSub t thinkM = false := by
  unfold hasSub strFind at h
  cases hp : thinkM.isPrefixOf (c :: t) with
  | true => rw [hp] at h; simp at h
  | false =>
    rw [hp] at h
    simp only [Bool.false_eq_true, if_false] at h
    refine ⟨rfl, ?_⟩
    unfold hasSub
    cases hfind : strFind t thinkM with
    | none => rfl
    | some i => rw [hfind] at h; simp at h

/-- The marker `'</think>'` has no proper border (no non-trivial prefix that
is also a suffix), so an occurrence of the marker in `a ++ thinkM ++ b`
cannot straddle the boundary between `a` and the embedded marker: if the
marker is a prefix of `a ++ thinkM ++ b` with `a` non-empty, then `a` itself
already contains the marker. -/
theorem marker_no_straddle (a b : List Char) (hne : a ≠ [])
    (h : thinkM.isPrefixOf (a ++ thinkM ++ b) = true) : hasSub a thinkM = true := by
  have hpre : thinkM <+: (a ++ thinkM) ++ b := List.isPrefixOf_iff_prefix.mp h
  by_cases hlen : 8 ≤ a.length
  · have ha : a <+: (a ++ thinkM) ++ b := by
      rw [List.append_assoc]
      exact List.prefix_append a _
    have hta : thinkM <+: a := by
      refine List.prefix_of_prefix_length_le hpre ha ?_
      rw [thinkM_length]
      exact hlen
    exact hasSub_of_isPrefixOf (List.isPrefixOf_iff_prefix.mpr hta)
  · push_neg at hlen
    have hk1 : 1 ≤ a.length := by
      have := List.length_pos.mpr hne
      omega
    obtain ⟨t, ht⟩ := hpre
    rw [List.append_assoc] at ht
    have hk8 : a.length - 8 = 0 := by omega
    have hdrop := congrArg (List.drop a.length) ht
    rw [List.drop_append_eq_append_drop, thinkM_length, hk8, List.drop_zero,
      List.drop_left] at hdrop
    have hlD : (thinkM.drop a.length).length = 8 - a.length := by
      rw [List.length_drop, thinkM_length]
    have htake := congrArg (List.take (8 - a.length)) hdrop
    rw [List.take_append_eq_append_take, List.take_append_eq_append_take, hlD,
      thinkM_length] at htake
    have e1 : 8 - a.length - (8 - a.length) = 0 := by omega
    have e2 : 8 - a.length - 8 = 0 := by omega
    rw [e1, e2] at htake
    simp only [List.take_zero, List.append_nil] at htake
    rw [List.take_of_length_le (le_of_eq hlD)] at htake
    exact absurd htake.symm (thinkM_no_border a.length hlen hk1)

/-- Find over `a ++ '</think>' ++ b` with marker-free `a` lands exactly at the
boundary index `a.length`. -/
theorem strFind_append_marker (a b : List Char) (h : hasSub a thinkM = false) :
    strFind (a ++ thinkM ++ b) thinkM = some a.length := by
  induction a with
  | nil =>
    rw [List.nil_append]
    exact strFind_of_isPrefixOf (List.isPrefixOf_iff_prefix.mpr (List.prefix_append _ _))
  | cons c a' ih =>
    obtain ⟨hp, ha'⟩ := hasSub_cons_false h
    have hcons : ((c :: a') ++ thinkM) ++ b = c :: ((a' ++ thinkM) ++ b) := by simp
    have hp2 : thinkM.isPrefixOf (c :: ((a' ++ thinkM) ++ b)) = false := by
      cases hq : thinkM.isPrefixOf (c :: ((a' ++ thinkM) ++ b)) with
      | false => rfl
      | true =>
        have hs := marker_no_straddle (c :: a') b (by simp) (by rw [hcons]; exact hq)
        exact absurd (h.symm.trans hs) (by decide)
    rw [hcons]
    unfold strFind
    rw [hp2]
    simp only [Bool.false_eq_true, if_false]
    rw [ih ha']
    rfl

/-- C8: if the literal marker `'</think>'` occurs in the raw reply, the
sanitizer returns everything strictly after its first occurrence trimmed of
surrounding whitespace; if it does not occur, the reply is returned
completely unchanged (and no error is possible). -/
theorem sanitizer_strips_reasoning (a b : List Char) (s : String)
    (ha : hasSub a thinkM = false) (hs : hasSub s.data thinkM = false) :
    extract_actual_response ⟨a ++ thinkM ++ b⟩ = ⟨pyStrip b⟩
    ∧ extract_actual_response s = s := by
  constructor
  · unfold extract_actual_response
    have hdata : (⟨a ++ thinkM ++ b⟩ : String).data = a ++ thinkM ++ b := rfl
    rw [hdata, strFind_append_marker a b ha]
    show (⟨pyStrip (((a ++ thinkM) ++ b).drop (a.length + 8))⟩ : String) = ⟨pyStrip b⟩
    have hdrop : ((a ++ thinkM) ++ b).drop (a.length + 8) = b := by
      rw [List.append_assoc, ← List.drop_drop, List.drop_left, ← thinkM_length,
        List.drop_left]
    rw [hdrop]
  · unfold extract_actual_response
    have hnone : strFind s.data thinkM = none := by
      unfold hasSub at hs
      cases hf : strFind s.data thinkM with
      | none => rfl
      | some i => rw [hf] at hs; simp at hs
    rw [hnone]

/-- Witness for C8: the specification's examples. -/
theorem sanitizer_strips_reasoning_witness :
    extract_actual_response "some reasoning</think> final answer" = "final answer"
    ∧ extract_actual_response "plain answer" = "plain answer" := by
  have h := sanitizer_strips_reasoning "some reasoning".data " final answer".data
    "plain answer" (by decide) (by decide)
  obtain ⟨h1, h2⟩ := h
  refine ⟨?_, h2⟩
  have e1 : (⟨"some reasoning".data ++ thinkM ++ " final answer".data⟩ : String)
      = "some reasoning</think> final answer" := by decide
  have e2 : (⟨pyStrip " final answer".data⟩ : String) = "final answer" := by decide
  rw [e1, e2] at h1
  exact h1

/-- Elements of `splitOnP isWS` contain no whitespace character. -/
theorem mem_splitOnP_no_ws (l : List Char) :
    ∀ w ∈ l.splitOnP isWS, ∀ c ∈ w, isWS c = false := by
  induction l with
  | nil =>
    intro w hw c hc
    rw [List.splitOnP_nil, List.mem_singleton] at hw
    subst hw
    simp at hc
  | cons x xs ih =>
    intro w hw c hc
    rw [List.splitOnP_cons] at hw
    by_cases hx : isWS x = true
    · rw [if_pos hx] at hw
      rcases List.mem_cons.mp hw with h1 | h1
      · subst h1; simp at hc
      · exact ih w h1 c hc
    · rw [if_neg hx] at hw
      cases hsp : xs.splitOnP isWS with
      | nil => exact absurd hsp (List.splitOnP_ne_nil _ _)
      | cons hd tl =>
        rw [hsp, List.modifyHead] at hw
        rcases List.mem_cons.mp hw with h1 | h1
        · subst h1
          rcases List.mem_cons.mp hc with hcx | hcd
          · subst hcx
            exact Bool.not_eq_true _ ▸ hx
          · exact ih hd (by rw [hsp]; exact List.mem_cons_self hd tl) c hcd
        · exact ih w (by rw [hsp]; exact List.mem_cons_of_mem hd h1) c hc

/-- Tokens produced by the Python `.split()` model are non-empty and free of
whitespace characters. -/
theorem mem_splitWs (l : List Char) :
    ∀ w ∈ splitWs l, w.isEmpty = false ∧ ∀ c ∈ w, isWS c = false := by
  intro w hw
  unfold splitWs at hw
  have hmem := List.mem_filter.mp hw
  constructor
  · have := hmem.2
    simp only [Bool.not_eq_true'] at this
    exact this
  · exact mem_splitOnP_no_ws l w hmem.1

/-- Rejoining whitespace-free non-empty tokens with single spaces and
re-splitting recovers exactly the tokens. -/
theorem splitWs_intercalate (ws : List (List Char))
    (hne : ∀ w ∈ ws, w.isEmpty = false)
    (hfree : ∀ w ∈ ws, ∀ c ∈ w, isWS c = false) :
    splitWs (List.intercalate [' '] ws) = ws := by
  induction ws with
  | nil => decide
  | cons w ws' ih =>
    have hwne : w.isEmpty = false := hne w (List.mem_cons_self w ws')
    have hwfree : ∀ c ∈ w, ¬ isWS c = true := by
      intro c hc
      rw [hfree w (List.mem_cons_self w ws') c hc]
      decide
    cases ws' with
    | nil =>
      have hone : List.intercalate [' '] [w] = w := by
        simp [List.intercalate]
      rw [hone]
      unfold splitWs
      rw [List.splitOnP_eq_single isWS w hwfree]
      simp [hwne]
    | cons w2 ws'' =>
      have hstep : List.intercalate [' '] (w :: w2 :: ws'')
          = w ++ ' ' :: List.intercalate [' '] (w2 :: ws'') := by
        simp [List.intercalate, List.intersperse_cons_cons]
      have ih2 := ih (fun v hv => hne v (List.mem_cons_of_mem w hv))
        (fun v hv => hfree v (List.mem_cons_of_mem w hv))
      unfold splitWs at ih2 ⊢
      rw [hstep, List.splitOnP_first isWS w hwfree ' ' (by decide) _]
      rw [List.filter_cons_of_pos (by simp [hwne])]
      rw [ih2]

/-- The truncated summary never has more than `max_words` tokens. -/
theorem truncate_words_word_count (s : String) (n : Nat) :
    (splitWs (truncate_words s n).data).length ≤ n := by
  unfold truncate_words
  by_cases h : (splitWs s.data).length > n
  · rw [if_pos h]
    have hdata : (⟨List.intercalate [' '] ((splitWs s.data).take n)⟩ : String).data
        = List.intercalate [' '] ((splitWs s.data).take n) := rfl
    rw [hdata]
    rw [splitWs_intercalate ((splitWs s.data).take n)
      (fun v hv => (mem_splitWs s.data v (List.mem_of_mem_take hv)).1)
      (fun v hv => (mem_splitWs s.data v (List.mem_of_mem_take hv)).2)]
    rw [List.length_take]
    omega
  · rw [if_neg h]
    omega

/-- C9: splitting on whitespace, a text with more than `maxWords` tokens is
truncated to exactly its first `maxWords` tokens rejoined with single spaces,
a text with at most `maxWords` tokens is returned unchanged, the result never
has more than `maxWords` tokens, and consequently any summary returned by
`summarize_pdf_with_cerebras` has at most `maxWords` tokens. -/
theorem word_budget_truncation (s : String) (n : Nat) (t : String)
    (fetch : ModelsFetchOutcome) (comp : CompletionResult) :
    ((splitWs s.data).length > n →
      truncate_words s n = ⟨List.intercalate [' '] ((splitWs s.data).take n)⟩)
    ∧ ((splitWs s.data).length ≤ n → truncate_words s n = s)
    ∧ (splitWs (truncate_words s n).data).length ≤ n
    ∧ (∀ out, (summarize_pdf_with_cerebras t n fetch comp).result = some out →
        (splitWs out.data).length ≤ n) := by
  refine ⟨fun h => ?_, fun h => ?_, truncate_words_word_count s n, fun out hout => ?_⟩
  · unfold truncate_words
    rw [if_pos h]
  · unfold truncate_words
    rw [if_neg (by omega)]
  · unfold summarize_pdf_with_cerebras at hout
    by_cases hg : (t = "" ∨ pyLen (pyStripStr t) < 50)
    · rw [if_pos hg] at hout
      simp at hout
    · rw [if_neg hg] at hout
      simp only [] at hout
      cases hr : (get_response [⟨"system", system_prompt⟩]
          (build_user_prompt (if pyLen t > 8000 then pySlice t 8000 else t) n)
          fetch comp).result with
      | none => rw [hr] at hout; simp at hout
      | some summary =>
        rw [hr] at hout
        simp only [Option.some.injEq] at hout
        rw [← hout]
        exact truncate_words_word_count summary n

/-- Witness for C9: a 4-word text truncated to 2 words, and a 2-word text
left unchanged by a 5-word budget. -/
theorem word_budget_truncation_witness :
    truncate_words "a b  c   d" 2 = "a b"
    ∧ truncate_words "a b" 5 = "a b"
    ∧ (splitWs (truncate_words "a b  c   d" 2).data).length ≤ 2 := by
  have h := word_budget_truncation "a b  c   d" 2 "" (.httpJson []) .exc
  have h2 := word_budget_truncation "a b" 5 "" (.httpJson []) .exc
  refine ⟨?_, h2.2.1 (by decide), h.2.2.1⟩
  have h1 := h.1 (by decide)
  rw [h1]
  decide

/-- Values produced by the query-string parser model are non-empty (CPython
`parse_qsl` with default arguments drops blank values). -/
theorem qsGetId_ne_empty {q v : List Char} (h : qsGetId q = some v) : v.isEmpty = false := by
  unfold qsGetId at h
  cases hf : (pyParseQsl q).find? (fun p => p.1 = "id".data) with
  | none => rw [hf] at h; cases h
  | some pr =>
    rw [hf] at h
    simp only [Option.map_some'] at h
    have hmem := List.mem_of_find?_eq_some hf
    unfold pyParseQsl at hmem
    obtain ⟨chunk, hchunk, hres⟩ := List.mem_filterMap.mp hmem
    by_cases hce : chunk.isEmpty = true
    · rw [if_pos hce] at hres; cases hres
    · rw [if_neg hce] at hres
      cases hsf : splitFirst '=' chunk with
      | none => rw [hsf] at hres; cases hres
      | some nv =>
        obtain ⟨n0, v0⟩ := nv
        rw [hsf] at hres
        dsimp only [] at hres
        by_cases hv : v0.isEmpty = true
        · rw [if_pos hv] at hres; cases hres
        · rw [if_neg hv] at hres
          have hpr := Option.some.inj hres
          have hv0 : (plusToSpace v0).isEmpty = false := by
            cases v0 with
            | nil => exact absurd rfl hv
            | cons c t => rfl
          have hveq := Option.some.inj h
          rw [← hveq, ← hpr]
          exact hv0

/-- C1 (amended): the resolver prefers the query parameter `id`; otherwise,
when the path contains `'/d/'`, it yields the *fourth path component*
(`path.split('/')[3]`) — not in general the segment immediately following
`/d/` — failing with the generic error when the path has no fourth component
(`IndexError`) and with the link-format error when that component is empty or
when neither pattern matches. -/
theorem link_resolution (link : List Char) :
    (∀ v, qsGetId (pyUrlparse link).query = some v → resolveLink link = .ok v)
    ∧ (qsGetId (pyUrlparse link).query = none →
        hasSub (pyUrlparse link).path dSeg = true →
        ((splitOnChar '/' (pyUrlparse link).path).get? 3 = none →
            resolveLink link = .genericError)
        ∧ (∀ seg, (splitOnChar '/' (pyUrlparse link).path).get? 3 = some seg →
            seg.isEmpty = false → resolveLink link = .ok seg)
        ∧ ((splitOnChar '/' (pyUrlparse link).path).get? 3 = some [] →
            resolveLink link = .linkFormatError))
    ∧ (qsGetId (pyUrlparse link).query = none →
        hasSub (pyUrlparse link).path dSeg = false →
        resolveLink link = .linkFormatError) := by
  refine ⟨fun v hv => ?_, fun hq hd => ⟨fun h3 => ?_, fun seg h3 hse => ?_, fun h3 => ?_⟩,
    fun hq hd => ?_⟩
  · unfold resolveLink
    dsimp only []
    rw [hv]
    dsimp only []
    rw [qsGetId_ne_empty hv]
    rfl
  · unfold resolveLink
    dsimp only []
    rw [hq, hd, h3]
    rfl
  · unfold resolveLink
    dsimp only []
    rw [hq, hd, h3]
    dsimp only []
    rw [hse]
    rfl
  · unfold resolveLink
    dsimp only []
    rw [hq, hd, h3]
    rfl
  · unfold resolveLink
    dsimp only []
    rw [hq, hd]
    rfl

/-- C1 counterexample: for the link `https://h/d/ABC/view` (path
`/d/ABC/view`) the resolver yields `view`, the fourth path component, whereas
the path segment immediately following `/d/` is `ABC`. -/
theorem link_resolution_counterexample :
    resolveLink "https://h/d/ABC/view".data = .ok "view".data
    ∧ segmentAfterD (pyUrlparse "https://h/d/ABC/view".data).path = some "ABC".data
    ∧ "view".data ≠ "ABC".data := by
  decide

/-- Witness for the amended C1 at the specification's example links. -/
theorem link_resolution_witness :
    resolveLink "https://drive.example.com/open?id=ABC123".data = .ok "ABC123".data
    ∧ resolveLink "https://drive.example.com/file/d/XYZ789/view".data = .ok "XYZ789".data
    ∧ resolveLink "https://drive.example.com/nothing/here".data = .linkFormatError := by
  refine ⟨?_, ?_, ?_⟩
  · exact (link_resolution _).1 "ABC123".data (by decide)
  · exact ((link_resolution _).2.1 (by decide) (by decide)).2.1 "XYZ789".data
      (by decide) (by decide)
  · exact (link_resolution _).2.2 (by decide) (by decide)
